import Mathlib

/-!
Shallow embedding of `src/source_distribution.rs` (pyo3-pack).

The file models:
* the Unix semantics of `std::path::Path` that the source relies on
  (component-wise equality, `parent`, `join`, `is_absolute`);
* `str::lines` as used to split the captured `cargo package --list` output;
* `source_distribution` (lines 15-75 of the source), with the subprocess
  and the archive writer as explicit collaborators: the subprocess outcome
  is an input, and the writer is modelled by the trace of calls issued;
* `BuildSystem` / `PyProjectToml` (lines 77-90) together with the serde
  deserialization semantics induced by the derive attributes
  (kebab-case field renaming, unknown keys ignored);
* `get_pyproject_toml` (lines 96-105), with the filesystem as a function
  input and the external TOML parser modelled on the fragment of TOML
  that pyproject.toml descriptor files use.
-/

namespace SDist

/-! ## Path model: Unix semantics of `std::path::Path` -/

/-- A parsed path component, as in `std::path::Component` (Unix: no prefix). -/
inductive Comp where
  | rootDir
  | curDir
  | parentDir
  | normal (s : List Char)
deriving DecidableEq, Repr

/-- Split a character list on a separator character, keeping empty segments. -/
def splitOnCh (c : Char) : List Char → List (List Char)
  | [] => [[]]
  | x :: rest =>
    let r := splitOnCh c rest
    if x = c then [] :: r
    else
      match r with
      | [] => [[x]]
      | h :: t => (x :: h) :: t

/-- A non-separator segment as a component: `..` is `ParentDir`, all else normal
(`.` segments are filtered out before this is applied). -/
def segComp (s : List Char) : Comp :=
  if s = ['.', '.'] then Comp.parentDir else Comp.normal s

/-- Whether the path string begins with the separator, i.e. `Path::is_absolute`
(on Unix this coincides with `has_root`). -/
def isAbsolutePath (p : String) : Bool :=
  match p.data with
  | '/' :: _ => true
  | _ => false

/-- The component list of a path, following `Path::components` normalization:
repeated separators collapse, `.` segments are dropped except a leading `./`,
a leading separator yields `RootDir`. -/
def components (p : String) : List Comp :=
  let segs := splitOnCh '/' p.data
  let nonEmpty := segs.filter (fun s => s ≠ [])
  let leadCur := !isAbsolutePath p && (nonEmpty.head? = some ['.'])
  (if isAbsolutePath p then [Comp.rootDir] else [])
    ++ (if leadCur then [Comp.curDir] else [])
    ++ (nonEmpty.filter (fun s => s ≠ ['.'])).map segComp

/-- Path equality as implemented by `PartialEq for Path`: equality of the
component lists. -/
def pathEq (a b : String) : Bool :=
  components a = components b

/-- Render one component back to text (the `RootDir` case is handled by
`renderComps`). -/
def compStr : Comp → String
  | Comp.rootDir => ""
  | Comp.curDir => "."
  | Comp.parentDir => ".."
  | Comp.normal s => String.mk s

/-- Join components with the separator. -/
def joinSep : List Comp → String
  | [] => ""
  | [c] => compStr c
  | c :: rest => compStr c ++ "/" ++ joinSep rest

/-- Render a component list back to a path string (`Components::as_path`,
up to the normalization already performed by `components`). -/
def renderComps : List Comp → String
  | Comp.rootDir :: rest => "/" ++ joinSep rest
  | cs => joinSep cs

/-- `Path::parent`: the path without its final component; `none` when there is
no component or the path consists of the root alone. `Path::parent` returns a
slice of the original string; this model re-renders the remaining components,
which agrees with the slice up to the normalization `components` performs. -/
def parent (p : String) : Option String :=
  match (components p).reverse with
  | [] => none
  | Comp.rootDir :: _ => none
  | _ :: rest => some (renderComps rest.reverse)

/-- Whether the path string ends with the separator (used by `PathBuf::push`
to decide whether to insert one). -/
def endsWithSep (s : String) : Bool :=
  match s.data.getLast? with
  | some '/' => true
  | _ => false

/-- `Path::join` / `PathBuf::push` (Unix): an absolute argument replaces the
base; otherwise the argument is appended, inserting a separator unless the
base is empty or already ends with one. -/
def pathJoin (base p : String) : String :=
  if isAbsolutePath p then p
  else if base = "" then p
  else if endsWithSep base then base ++ p
  else base ++ "/" ++ p

/-! ## `str::lines` -/

/-- Drop a final carriage return, as `str::lines` does for `\r\n` endings. -/
def dropTrailingCR (l : List Char) : List Char :=
  match l.getLast? with
  | some '\x0d' => l.dropLast
  | _ => l

/-- `str::lines`: split on newline characters; a final line terminator does
not produce a trailing empty line; each `\r\n` ending loses its `\r`. -/
def rustLines (s : String) : List String :=
  match s.data with
  | [] => []
  | _ =>
    let parts := splitOnCh '\n' s.data
    let parts := if s.data.getLast? = some '\n' then parts.dropLast else parts
    parts.map (fun l => String.mk (dropTrailingCR l))

/-! ## Collaborator models for `source_distribution` -/

/-- Captured bytes of one of the subprocess's output streams: either valid
UTF-8 (carrying the decoded text) or not (`str::from_utf8` fails). -/
inductive ToolBytes where
  | utf8 (s : String)
  | invalid (raw : List Nat)
deriving DecidableEq, Repr

/-- `str::from_utf8` on the captured bytes. -/
def decodeUtf8 : ToolBytes → Option String
  | ToolBytes.utf8 s => some s
  | ToolBytes.invalid _ => none

/-- `std::process::Output`: exit-status success flag, the status itself
(modelled by its code), and the captured streams. -/
structure ProcessOutput where
  success : Bool
  status : Int
  stdout : ToolBytes
  stderr : ToolBytes
deriving DecidableEq, Repr

/-- Outcome of `Command::output()`: the launch itself may fail (the
`.context("Failed to run cargo")?` path), or the tool runs to completion. -/
inductive RunOutcome where
  | failedToStart
  | ran (out : ProcessOutput)
deriving DecidableEq, Repr

/-- Package metadata; opaque to this component beyond
`Metadata21::to_file_contents`. -/
structure Metadata21 where
  to_file_contents : String
deriving DecidableEq, Repr

/-- One call issued to the archive-writer collaborator (`SDistWriter`). -/
inductive WriterCall where
  | newSession (wheel_dir : String) (metadata : Metadata21)
  | addFile (target : String) (source : String)
  | addBytes (name : String) (contents : String)
  | finish
deriving DecidableEq, Repr

/-- The distinguishable failures of `source_distribution`, one per `bail!` /
`?` site in lines 20-58 of the source. -/
inductive SdistError where
  | toolInvocation
  | toolExecution (status : Int) (stdout : ToolBytes) (stderr : ToolBytes)
  | encoding
  | missingBuildDescriptor
deriving DecidableEq, Repr

/-- Result of a `source_distribution` call: the `.unwrap()` on
`manifest_path.parent()` at line 40 may panic; otherwise the call fails with
an error after having issued some writer calls, or succeeds. -/
inductive SdistResult where
  | panicked
  | err (e : SdistError) (calls : List WriterCall)
  | ok (calls : List WriterCall)
deriving DecidableEq, Repr

/-- Lines 42-48 of the source: map each line of the tool's decoded output to
the pair (target path, source path), the source path being the line resolved
against the manifest directory. -/
def resolveManifest (manifest_dir : String) (text : String) :
    List (String × String) :=
  (rustLines text).map (fun l => (l, pathJoin manifest_dir l))

/-- Lines 50-53 of the source: whether some target path equals the path
`pyproject.toml`, compared by `Path` equality. -/
def containsPyprojectToml (target_source : List (String × String)) : Bool :=
  target_source.any (fun ts => pathEq ts.1 "pyproject.toml")

/-- `source_distribution` (lines 15-75). `cargo` models
`cargo package --list --allow-dirty --manifest-path <manifest_path>`:
it maps the manifest path to the subprocess outcome. On success the result
carries the full trace of writer calls; on failure, the calls issued before
the failure (writer operations themselves are modelled as succeeding). -/
def source_distribution (cargo : String → RunOutcome) (wheel_dir : String)
    (metadata21 : Metadata21) (manifest_path : String) : SdistResult :=
  match cargo manifest_path with
  | RunOutcome.failedToStart => SdistResult.err SdistError.toolInvocation []
  | RunOutcome.ran out =>
    if !out.success then
      SdistResult.err (SdistError.toolExecution out.status out.stdout out.stderr) []
    else
      match decodeUtf8 out.stdout with
      | none => SdistResult.err SdistError.encoding []
      | some text =>
        match parent manifest_path with
        | none => SdistResult.panicked
        | some manifest_dir =>
          let target_source := resolveManifest manifest_dir text
          if !containsPyprojectToml target_source then
            SdistResult.err SdistError.missingBuildDescriptor []
          else
            SdistResult.ok
              ([WriterCall.newSession wheel_dir metadata21]
                ++ target_source.map (fun ts => WriterCall.addFile ts.1 ts.2)
                ++ [WriterCall.addBytes "PKG-INFO" metadata21.to_file_contents,
                    WriterCall.finish])

/-! ## `BuildSystem`, `PyProjectToml` and `get_pyproject_toml` -/

/-- The `[build-system]` section of a pyproject.toml (lines 78-83 of the
source). The serde derive renames fields to kebab-case on the wire:
`requires` and `build-backend`. -/
structure BuildSystem where
  requires : List String
  build_backend : String
deriving DecidableEq, Repr

/-- A pyproject.toml (lines 86-90): only the `build-system` table is read. -/
structure PyProjectToml where
  build_system : BuildSystem
deriving DecidableEq, Repr

/-- A TOML value, restricted to the shapes a PEP 517 descriptor uses:
strings, arrays, and tables of key/value pairs. -/
inductive TomlValue where
  | str (s : String)
  | arr (xs : List TomlValue)
  | table (kvs : List (String × TomlValue))

/-- First value bound to a key in a key/value list. -/
def lookupKey (k : String) : List (String × TomlValue) → Option TomlValue
  | [] => none
  | (k', v) :: rest => if k' = k then some v else lookupKey k rest

/-- Deserialize a TOML array as `Vec<String>`: every element must be a
string. -/
def strArray : List TomlValue → Option (List String)
  | [] => some []
  | TomlValue.str s :: rest =>
    match strArray rest with
    | some ss => some (s :: ss)
    | none => none
  | _ :: _ => none

/-- A looked-up value as a string, if it is one. -/
def asStrVal : Option TomlValue → Option String
  | some (TomlValue.str s) => some s
  | _ => none

/-- A looked-up value as an array, if it is one. -/
def asArrVal : Option TomlValue → Option (List TomlValue)
  | some (TomlValue.arr xs) => some xs
  | _ => none

/-- A looked-up value as a table, if it is one. -/
def asTableVal : Option TomlValue → Option (List (String × TomlValue))
  | some (TomlValue.table kvs) => some kvs
  | _ => none

/-- Serde deserialization of `BuildSystem` from a `[build-system]` table:
`requires` must be present and an array of strings, `build-backend` present
and a string (kebab-case wire names per the derive attribute); other keys in
the table are ignored (the derive does not deny unknown fields). -/
def deserializeBuildSystem (kvs : List (String × TomlValue)) :
    Option BuildSystem :=
  (asArrVal (lookupKey "requires" kvs)).bind (fun vs =>
    (asStrVal (lookupKey "build-backend" kvs)).bind (fun b =>
      (strArray vs).map (fun ss => BuildSystem.mk ss b)))

/-- Serde deserialization of `PyProjectToml` from a parsed document: the
`build-system` key must be bound to a table that deserializes as
`BuildSystem`; all other top-level sections are ignored. -/
def deserializePyProject (doc : List (String × TomlValue)) :
    Option PyProjectToml :=
  (asTableVal (lookupKey "build-system" doc)).bind (fun kvs =>
    (deserializeBuildSystem kvs).map PyProjectToml.mk)

/-! ### A TOML parser for the fragment descriptor files use

`toml::from_str` is an external crate; the source file only calls it. The
parser below models it on the fragment `[build-system]` descriptors are
written in: `[name]` table headers, `key = value` bindings with quoted-string
or array-of-quoted-string values, blank and `#`-comment lines (no escape
sequences, dotted keys, or nested arrays). -/

/-- Drop leading spaces and tabs. -/
def trimLeadWs (l : List Char) : List Char :=
  l.dropWhile (fun c => c = ' ' ∨ c = '\x09')

/-- Drop leading and trailing spaces and tabs. -/
def trimWs (l : List Char) : List Char :=
  (trimLeadWs (trimLeadWs l).reverse).reverse

/-- Parse a scalar TOML value: a quoted string, or a (non-nested) array of
comma-separated quoted strings. -/
def parseValue (l : List Char) : Option TomlValue :=
  match trimWs l with
  | '"' :: rest =>
    match rest.getLast? with
    | some '"' => some (TomlValue.str (String.mk rest.dropLast))
    | _ => none
  | '[' :: rest =>
    match rest.getLast? with
    | some ']' =>
      let inner := trimWs rest.dropLast
      if inner = [] then some (TomlValue.arr [])
      else
        let items := (splitOnCh ',' inner).map (fun it =>
          match trimWs it with
          | '"' :: r =>
            match r.getLast? with
            | some '"' => some (TomlValue.str (String.mk r.dropLast))
            | _ => none
          | _ => none)
        if items.all Option.isSome then
          some (TomlValue.arr (items.filterMap id))
        else none
    | _ => none
  | _ => none

/-- One line of a TOML document, classified. -/
inductive TomlLine where
  | blank
  | header (name : String)
  | binding (key : String) (v : TomlValue)

/-- Classify one line: blank/comment, `[name]` header, or `key = value`. -/
def parseLine (l : List Char) : Option TomlLine :=
  match trimWs l with
  | [] => some TomlLine.blank
  | '#' :: _ => some TomlLine.blank
  | '[' :: rest =>
    match rest.getLast? with
    | some ']' => some (TomlLine.header (String.mk (trimWs rest.dropLast)))
    | _ => none
  | t =>
    match splitOnCh '=' t with
    | k :: v₀ :: vs =>
      match parseValue (List.intercalate ['='] (v₀ :: vs)) with
      | some v => some (TomlLine.binding (String.mk (trimWs k)) v)
      | none => none
    | _ => none

/-- Assemble classified lines into a document: bindings before any header are
top-level, a header opens a table collecting the following bindings. -/
def buildDoc : List TomlLine → List (String × TomlValue) →
    Option (String × List (String × TomlValue)) →
    List (String × TomlValue)
  | [], top, cur =>
    top ++ (match cur with
      | some (n, kvs) => [(n, TomlValue.table kvs)]
      | none => [])
  | TomlLine.blank :: rest, top, cur => buildDoc rest top cur
  | TomlLine.header n :: rest, top, cur =>
    let top := top ++ (match cur with
      | some (n', kvs) => [(n', TomlValue.table kvs)]
      | none => [])
    buildDoc rest top (some (n, []))
  | TomlLine.binding k v :: rest, top, cur =>
    match cur with
    | none => buildDoc rest (top ++ [(k, v)]) none
    | some (n, kvs) => buildDoc rest top (some (n, kvs ++ [(k, v)]))

/-- Parse a whole document: classify every line, then assemble; any
unclassifiable line is a parse error. -/
def parseToml (s : String) : Option (List (String × TomlValue)) :=
  let lines := (rustLines s).map (fun l => parseLine l.data)
  if lines.all Option.isSome then
    some (buildDoc (lines.filterMap id) [] none)
  else none

/-- The failures of `get_pyproject_toml`: the read failed (the error carries
the underlying I/O cause and the attempted path, from the
`Couldn't find pyproject.toml at ...` context at lines 98-101), or the
contents did not parse/deserialize (the `not PEP 517 compliant` error at
lines 102-103). -/
inductive PyError where
  | notFound (cause : String) (path : String)
  | schema
deriving DecidableEq, Repr

/-- `get_pyproject_toml` (lines 96-105). The filesystem is a function from
path to either contents or an I/O error message. -/
def get_pyproject_toml (fs : String → Except String String)
    (project_root : String) : Except PyError PyProjectToml :=
  let path := pathJoin project_root "pyproject.toml"
  match fs path with
  | Except.error cause => Except.error (PyError.notFound cause path)
  | Except.ok contents =>
    match parseToml contents with
    | none => Except.error PyError.schema
    | some doc =>
      match deserializePyProject doc with
      | some p => Except.ok p
      | none => Except.error PyError.schema

/-- Spec-side predicate, following the spec's words for §4.2: the parsed
document has a well-formed `build-system` section, i.e. `build-system` is
bound to a table whose `requires` key is an array of strings and whose
`build-backend` key is a string. -/
def wellFormedBuildSystem (doc : List (String × TomlValue)) : Prop :=
  ∃ kvs reqs backend,
    lookupKey "build-system" doc = some (TomlValue.table kvs) ∧
    lookupKey "requires" kvs = some (TomlValue.arr reqs) ∧
    (∀ v ∈ reqs, ∃ s, v = TomlValue.str s) ∧
    lookupKey "build-backend" kvs = some (TomlValue.str backend)

/-! ## Theorems -/

theorem strArray_some_of (vs : List TomlValue)
    (h : ∀ v ∈ vs, ∃ s, v = TomlValue.str s) : ∃ ss, strArray vs = some ss := by
  induction vs with
  | nil => exact ⟨[], rfl⟩
  | cons v rest ih =>
    obtain ⟨s, rfl⟩ := h v (List.mem_cons_self v rest)
    obtain ⟨ss, hss⟩ := ih (fun v hv => h v (List.mem_cons_of_mem _ hv))
    exact ⟨s :: ss, by simp [strArray, hss]⟩

theorem strArray_all_str (vs : List TomlValue) (ss : List String)
    (h : strArray vs = some ss) : ∀ v ∈ vs, ∃ s, v = TomlValue.str s := by
  induction vs generalizing ss with
  | nil => simp
  | cons v rest ih =>
    cases v with
    | str s =>
      intro x hx
      rcases List.mem_cons.mp hx with rfl | hx'
      · exact ⟨s, rfl⟩
      · simp only [strArray] at h
        cases hr : strArray rest with
        | none => rw [hr] at h; cases h
        | some ss' => exact ih ss' hr x hx'
    | arr xs => simp [strArray] at h
    | table kvs => simp [strArray] at h

theorem deserialize_isSome (doc : List (String × TomlValue)) :
    (deserializePyProject doc).isSome = true ↔ wellFormedBuildSystem doc := by
  constructor
  · intro h
    rw [deserializePyProject] at h
    cases hbs : lookupKey "build-system" doc with
    | none => rw [hbs] at h; simp [asTableVal] at h
    | some v =>
      rw [hbs] at h
      cases v with
      | str s => simp [asTableVal] at h
      | arr xs => simp [asTableVal] at h
      | table kvs =>
        simp only [asTableVal, Option.some_bind] at h
        rw [deserializeBuildSystem] at h
        cases hr : lookupKey "requires" kvs with
        | none => rw [hr] at h; simp [asArrVal] at h
        | some rv =>
          rw [hr] at h
          cases rv with
          | str s => simp [asArrVal] at h
          | table k => simp [asArrVal] at h
          | arr reqs =>
            simp only [asArrVal, Option.some_bind] at h
            cases hb : lookupKey "build-backend" kvs with
            | none => rw [hb] at h; simp [asStrVal] at h
            | some bv =>
              rw [hb] at h
              cases bv with
              | arr xs => simp [asStrVal] at h
              | table k => simp [asStrVal] at h
              | str backend =>
                simp only [asStrVal, Option.some_bind] at h
                cases hs : strArray reqs with
                | none => rw [hs] at h; simp at h
                | some ss =>
                  exact ⟨kvs, reqs, backend, hbs, hr,
                    strArray_all_str reqs ss hs, hb⟩
  · rintro ⟨kvs, reqs, backend, hbs, hr, hall, hb⟩
    obtain ⟨ss, hss⟩ := strArray_some_of reqs hall
    simp [deserializePyProject, deserializeBuildSystem, hbs, hr, hb, hss,
      asTableVal, asArrVal, asStrVal]

/-- C1: if the tool runs successfully and its decoded listing contains no
line whose path equals `pyproject.toml`, `source_distribution` fails with
the missing-build-descriptor error and the writer receives zero calls: no
session is created and `add_file`, `add_bytes`, `finish` are never invoked
(the call trace is empty). -/
theorem missing_descriptor_fails_with_no_writer_calls
    (cargo : String → RunOutcome) (w : String) (m : Metadata21)
    (p : String) (out : ProcessOutput) (text : String)
    (hrun : cargo p = RunOutcome.ran out) (hok : out.success = true)
    (hstdout : out.stdout = ToolBytes.utf8 text)
    (hpar : (parent p).isSome = true)
    (hmiss : ∀ l ∈ rustLines text, pathEq l "pyproject.toml" = false) :
    source_distribution cargo w m p
      = SdistResult.err SdistError.missingBuildDescriptor [] := by
  obtain ⟨d, hd⟩ := Option.isSome_iff_exists.mp hpar
  have hcontains : containsPyprojectToml (resolveManifest d text) = false := by
    simp only [containsPyprojectToml, resolveManifest, List.any_eq_false]
    rintro ⟨t, s⟩ hts
    rw [List.mem_map] at hts
    obtain ⟨l, hl, heq⟩ := hts
    cases heq
    simp only [Bool.not_eq_true]
    exact hmiss t hl
  simp [source_distribution, hrun, hok, hstdout, decodeUtf8, hd, hcontains]

theorem missing_descriptor_fails_with_no_writer_calls_witness :
    source_distribution
      (fun _ => RunOutcome.ran
        ⟨true, 0, ToolBytes.utf8 "src/lib.rs\n", ToolBytes.utf8 ""⟩)
      "/out" ⟨"META"⟩ "/proj/Cargo.toml"
      = SdistResult.err SdistError.missingBuildDescriptor [] :=
  missing_descriptor_fails_with_no_writer_calls
    (fun _ => RunOutcome.ran
      ⟨true, 0, ToolBytes.utf8 "src/lib.rs\n", ToolBytes.utf8 ""⟩)
    "/out" ⟨"META"⟩ "/proj/Cargo.toml"
    ⟨true, 0, ToolBytes.utf8 "src/lib.rs\n", ToolBytes.utf8 ""⟩ "src/lib.rs\n"
    rfl rfl rfl (by decide) (by decide)

/-- C2: for tool stdout consisting of the lines `pyproject.toml` and
`src/lib.rs` (with trailing newline) and manifest path `/proj/Cargo.toml`,
the manifest directory is `/proj` and resolution produces exactly the pairs
`(pyproject.toml, /proj/pyproject.toml)` then `(src/lib.rs,
/proj/src/lib.rs)`, in emission order. -/
theorem resolution_of_two_line_listing :
    parent "/proj/Cargo.toml" = some "/proj" ∧
    resolveManifest "/proj" "pyproject.toml\nsrc/lib.rs\n" =
      [("pyproject.toml", "/proj/pyproject.toml"),
       ("src/lib.rs", "/proj/src/lib.rs")] :=
  ⟨rfl, rfl⟩

/-- C3: whenever the tool exits non-successfully, `source_distribution`
fails with the tool-execution error carrying the exit status and the
captured stdout and stderr, with no writer calls; and the result is the
same for any call whose subprocess outcome is that same failing output
(before any decoding of stdout — the stdout may even be invalid UTF-8 —
and before any path resolution). -/
theorem tool_failure_yields_execution_error
    (cargo : String → RunOutcome) (w : String) (m : Metadata21) (p : String)
    (out : ProcessOutput)
    (hrun : cargo p = RunOutcome.ran out) (hfail : out.success = false) :
    source_distribution cargo w m p
      = SdistResult.err
          (SdistError.toolExecution out.status out.stdout out.stderr) [] ∧
    ∀ (cargo' : String → RunOutcome) (w' : String) (m' : Metadata21)
      (p' : String), cargo' p' = RunOutcome.ran out →
      source_distribution cargo' w' m' p' = source_distribution cargo w m p := by
  have key : ∀ (c : String → RunOutcome) (w₀ : String) (m₀ : Metadata21)
      (p₀ : String), c p₀ = RunOutcome.ran out →
      source_distribution c w₀ m₀ p₀
        = SdistResult.err
            (SdistError.toolExecution out.status out.stdout out.stderr) [] := by
    intro c w₀ m₀ p₀ hc
    simp [source_distribution, hc, hfail]
  exact ⟨key cargo w m p hrun,
    fun c' w' m' p' hc' => (key c' w' m' p' hc').trans (key cargo w m p hrun).symm⟩

theorem tool_failure_yields_execution_error_witness :
    source_distribution
      (fun _ => RunOutcome.ran
        ⟨false, 101, ToolBytes.invalid [255], ToolBytes.utf8 "error text"⟩)
      "/out" ⟨"META"⟩ "/proj/Cargo.toml"
      = SdistResult.err
          (SdistError.toolExecution 101 (ToolBytes.invalid [255])
            (ToolBytes.utf8 "error text")) [] :=
  (tool_failure_yields_execution_error
    (fun _ => RunOutcome.ran
      ⟨false, 101, ToolBytes.invalid [255], ToolBytes.utf8 "error text"⟩)
    "/out" ⟨"META"⟩ "/proj/Cargo.toml"
    ⟨false, 101, ToolBytes.invalid [255], ToolBytes.utf8 "error text"⟩
    rfl rfl).1

/-- C4 counterexample: a decoded line that is an absolute path yields an
entry whose target path is absolute — the resolution step (lines 42-48)
never checks for absoluteness, so the claimed invariant fails on this
listing. -/
theorem absolute_line_yields_absolute_target :
    resolveManifest "/proj" "/etc/passwd\npyproject.toml\n"
      = [("/etc/passwd", "/etc/passwd"),
         ("pyproject.toml", "/proj/pyproject.toml")] ∧
    isAbsolutePath "/etc/passwd" = true :=
  ⟨rfl, rfl⟩

/-- C4 amended: every entry's target path is exactly one of the decoded
lines (and the source path is that line resolved against the manifest
directory); hence the resolution step introduces no absoluteness — a
target path is absolute only when the tool emitted an absolute line. -/
theorem target_path_is_the_emitted_line (d text : String) :
    ∀ e ∈ resolveManifest d text,
      e.1 ∈ rustLines text ∧ e.2 = pathJoin d e.1 := by
  intro e he
  simp only [resolveManifest, List.mem_map] at he
  obtain ⟨l, hl, rfl⟩ := he
  exact ⟨hl, rfl⟩

theorem target_path_is_the_emitted_line_witness :
    ("src/lib.rs", "/proj/src/lib.rs") ∈ resolveManifest "/proj" "src/lib.rs\n" ∧
    ("src/lib.rs", "/proj/src/lib.rs").1 ∈ rustLines "src/lib.rs\n" ∧
    ("src/lib.rs", "/proj/src/lib.rs").2
      = pathJoin "/proj" ("src/lib.rs", "/proj/src/lib.rs").1 :=
  ⟨by decide,
   target_path_is_the_emitted_line "/proj" "src/lib.rs\n"
     ("src/lib.rs", "/proj/src/lib.rs") (by decide)⟩

/-- C5: under the precondition that the manifest path has a parent
directory, `source_distribution` never panics (the only panic site is the
`.unwrap()` at line 40), and the resolution step is total: it produces one
entry per decoded line for any listing contents, with no filesystem
access (it is a pure function in this model). -/
theorem resolution_is_total_and_never_panics
    (cargo : String → RunOutcome) (w : String) (m : Metadata21)
    (p : String) (hpar : (parent p).isSome = true) :
    source_distribution cargo w m p ≠ SdistResult.panicked ∧
    ∀ (d text : String),
      (resolveManifest d text).length = (rustLines text).length := by
  refine ⟨?_, fun d text => by simp [resolveManifest]⟩
  obtain ⟨d, hd⟩ := Option.isSome_iff_exists.mp hpar
  cases hc : cargo p with
  | failedToStart => simp [source_distribution, hc]
  | ran out =>
    cases hs : out.success with
    | false => simp [source_distribution, hc, hs]
    | true =>
      cases ho : decodeUtf8 out.stdout with
      | none => simp [source_distribution, hc, hs, ho]
      | some text =>
        cases hm : containsPyprojectToml (resolveManifest d text) <;>
          simp [source_distribution, hc, hs, ho, hd, hm]

theorem resolution_is_total_and_never_panics_witness :
    source_distribution (fun _ => RunOutcome.failedToStart)
        "/out" ⟨"META"⟩ "/proj/Cargo.toml" ≠ SdistResult.panicked ∧
    (resolveManifest "/proj" "a\nb\n").length = (rustLines "a\nb\n").length :=
  ⟨(resolution_is_total_and_never_panics (fun _ => RunOutcome.failedToStart)
      "/out" ⟨"META"⟩ "/proj/Cargo.toml" (by decide)).1,
   (resolution_is_total_and_never_panics (fun _ => RunOutcome.failedToStart)
      "/out" ⟨"META"⟩ "/proj/Cargo.toml" (by decide)).2 "/proj" "a\nb\n"⟩

/-- C6: a descriptor file whose text is
`[build-system]` / `requires = ["maturin"]` / `build-backend = "maturin"`
loads successfully, the hyphen-separated wire names mapping to the
internal attributes: `requires` is `["maturin"]` and `build_backend` is
`"maturin"`. -/
theorem load_parses_build_system_section :
    get_pyproject_toml
      (fun path => if path = "/proj/pyproject.toml"
        then Except.ok
          "[build-system]\nrequires = [\"maturin\"]\nbuild-backend = \"maturin\""
        else Except.error "file does not exist")
      "/proj"
      = Except.ok (PyProjectToml.mk (BuildSystem.mk ["maturin"] "maturin")) :=
  rfl

/-- C7: for a readable descriptor whose text parses as a document,
`get_pyproject_toml` fails with the schema error exactly when the document
lacks a well-formed `build-system` section; and deserialization ignores any
additional section with a different name, so unrecognized sections
elsewhere never cause a failure. -/
theorem schema_failure_iff_build_system_missing_or_malformed :
    (∀ (fs : String → Except String String) (root contents : String)
        (doc : List (String × TomlValue)),
        fs (pathJoin root "pyproject.toml") = Except.ok contents →
        parseToml contents = some doc →
        (get_pyproject_toml fs root = Except.error PyError.schema ↔
          ¬ wellFormedBuildSystem doc)) ∧
    (∀ (doc : List (String × TomlValue)) (k : String) (v : TomlValue),
        k ≠ "build-system" →
        deserializePyProject ((k, v) :: doc) = deserializePyProject doc) := by
  constructor
  · intro fs root contents doc hfs hparse
    rw [← deserialize_isSome]
    cases hd : deserializePyProject doc with
    | none => simp [get_pyproject_toml, hfs, hparse, hd]
    | some pt => simp [get_pyproject_toml, hfs, hparse, hd]
  · intro doc k v hk
    simp [deserializePyProject, lookupKey, hk]

theorem schema_failure_iff_build_system_missing_or_malformed_witness :
    get_pyproject_toml (fun _ => Except.ok "") "/proj"
      = Except.error PyError.schema := by
  refine (schema_failure_iff_build_system_missing_or_malformed.1
    (fun _ => Except.ok "") "/proj" "" [] rfl rfl).mpr ?_
  rintro ⟨kvs, reqs, backend, hbs, _⟩
  simp [lookupKey] at hbs

/-- C8: whenever reading the descriptor file fails, `get_pyproject_toml`
fails with the not-found error wrapping both the underlying I/O cause and
the exact path attempted: the project root joined with `pyproject.toml`. -/
theorem unreadable_descriptor_fails_with_attempted_path
    (fs : String → Except String String) (root cause : String)
    (hfs : fs (pathJoin root "pyproject.toml") = Except.error cause) :
    get_pyproject_toml fs root
      = Except.error
          (PyError.notFound cause (pathJoin root "pyproject.toml")) := by
  simp [get_pyproject_toml, hfs]

theorem unreadable_descriptor_fails_with_attempted_path_witness :
    get_pyproject_toml (fun _ => Except.error "no such file") "/proj"
      = Except.error
          (PyError.notFound "no such file" (pathJoin "/proj" "pyproject.toml")) :=
  unreadable_descriptor_fails_with_attempted_path
    (fun _ => Except.error "no such file") "/proj" "no such file" rfl

/-- C9 counterexample: if the tool's listing itself contains the line
`PKG-INFO`, the archive receives an `add_file` under target `PKG-INFO` and
then the metadata blob under the same name — the fixed well-known name is
not distinct from every copied entry, because no check prevents the
collision. -/
theorem pkg_info_can_collide_with_listed_entry :
    source_distribution
      (fun _ => RunOutcome.ran
        ⟨true, 0, ToolBytes.utf8 "pyproject.toml\nPKG-INFO\n", ToolBytes.utf8 ""⟩)
      "/out" ⟨"META"⟩ "/proj/Cargo.toml"
      = SdistResult.ok
          [WriterCall.newSession "/out" ⟨"META"⟩,
           WriterCall.addFile "pyproject.toml" "/proj/pyproject.toml",
           WriterCall.addFile "PKG-INFO" "/proj/PKG-INFO",
           WriterCall.addBytes "PKG-INFO" "META",
           WriterCall.finish] :=
  rfl

/-- C9 amended: the metadata text blob is embedded under the fixed name
`PKG-INFO`, generated from the metadata rather than copied from disk, and
this name is distinct from the target path of every copied entry whenever
the tool's listing contains no line equal to `PKG-INFO`. -/
theorem pkg_info_distinct_unless_listed
    (cargo : String → RunOutcome) (w : String)
    (m : Metadata21) (p : String) (out : ProcessOutput) (text : String)
    (calls : List WriterCall)
    (hrun : cargo p = RunOutcome.ran out) (hok : out.success = true)
    (hstdout : out.stdout = ToolBytes.utf8 text)
    (hno : ∀ l ∈ rustLines text, l ≠ "PKG-INFO")
    (hres : source_distribution cargo w m p = SdistResult.ok calls) :
    WriterCall.addBytes "PKG-INFO" m.to_file_contents ∈ calls ∧
    ∀ t s, WriterCall.addFile t s ∈ calls → t ≠ "PKG-INFO" := by
  cases hp : parent p with
  | none =>
    simp [source_distribution, hrun, hok, hstdout, decodeUtf8, hp] at hres
  | some d =>
    by_cases hm : containsPyprojectToml (resolveManifest d text) = true
    · have hcalls : calls
          = [WriterCall.newSession w m]
            ++ (resolveManifest d text).map
                (fun ts => WriterCall.addFile ts.1 ts.2)
            ++ [WriterCall.addBytes "PKG-INFO" m.to_file_contents,
                WriterCall.finish] := by
        simp [source_distribution, hrun, hok, hstdout, decodeUtf8, hp, hm]
          at hres
        exact hres.symm
      subst hcalls
      refine ⟨by simp, ?_⟩
      intro t s h
      simp only [List.cons_append, List.singleton_append, List.mem_cons,
        List.mem_append, List.mem_map] at h
      rcases h with h | (h | ⟨a, ha, hfe⟩) | h | h | h
      · cases h
      · simp at h
      · have ha' : ∃ l ∈ rustLines text, (l, pathJoin d l) = a := by
          simpa [resolveManifest] using ha
        obtain ⟨l, hl, rfl⟩ := ha'
        injection hfe with h1 h2
        rw [← h1]
        exact hno l hl
      · cases h
      · cases h
      · simp at h
    · simp [source_distribution, hrun, hok, hstdout, decodeUtf8, hp, hm]
        at hres

theorem pkg_info_distinct_unless_listed_witness :
    WriterCall.addBytes "PKG-INFO" (Metadata21.mk "META").to_file_contents ∈
      [WriterCall.newSession "/out" ⟨"META"⟩,
       WriterCall.addFile "pyproject.toml" "/proj/pyproject.toml",
       WriterCall.addBytes "PKG-INFO" "META", WriterCall.finish] ∧
    ∀ t s, WriterCall.addFile t s ∈
      [WriterCall.newSession "/out" ⟨"META"⟩,
       WriterCall.addFile "pyproject.toml" "/proj/pyproject.toml",
       WriterCall.addBytes "PKG-INFO" "META", WriterCall.finish] →
      t ≠ "PKG-INFO" :=
  pkg_info_distinct_unless_listed
    (fun _ => RunOutcome.ran
      ⟨true, 0, ToolBytes.utf8 "pyproject.toml\n", ToolBytes.utf8 ""⟩)
    "/out" ⟨"META"⟩ "/proj/Cargo.toml"
    ⟨true, 0, ToolBytes.utf8 "pyproject.toml\n", ToolBytes.utf8 ""⟩
    "pyproject.toml\n"
    [WriterCall.newSession "/out" ⟨"META"⟩,
     WriterCall.addFile "pyproject.toml" "/proj/pyproject.toml",
     WriterCall.addBytes "PKG-INFO" "META", WriterCall.finish]
    rfl rfl rfl (by decide) (by decide)

/-- C10: the invariant check compares target paths to `pyproject.toml` by
exact whole-path component equality: `./pyproject.toml` and
`some/dir/pyproject.toml` do not match it, so a listing containing only
those still fails with the missing-build-descriptor error. -/
theorem descriptor_check_uses_exact_path_equality :
    pathEq "./pyproject.toml" "pyproject.toml" = false ∧
    pathEq "some/dir/pyproject.toml" "pyproject.toml" = false ∧
    source_distribution
      (fun _ => RunOutcome.ran
        ⟨true, 0,
         ToolBytes.utf8 "./pyproject.toml\nsome/dir/pyproject.toml\n",
         ToolBytes.utf8 ""⟩)
      "/out" ⟨"META"⟩ "/proj/Cargo.toml"
      = SdistResult.err SdistError.missingBuildDescriptor [] :=
  ⟨by decide, by decide, by decide⟩

end SDist
